import Mathlib

/-!
# Verification of the theatom arbitrage engine

A shallow embedding, in Lean 4, of the core of the `theatom` repository:
the AMM math, opportunity scanner and confidence scorer of
`src/agents/agent_mev_calculator.py`, the execution-dispatch loop of
`src/agents/master_agent_orchestrator.py`, the replace-by-fee submission
loop of `src/backend/Arb Bot/atom-mev-protection.py`, and the price-cache
snapshot of `src/backend/src/modules/dex_monitor.py`.

Modelling conventions:
* Python `Decimal` (50-digit context) values are modelled as exact rationals
  `ℚ`.  All `Decimal` arithmetic in the claims stays well inside 50
  significant digits, where it is exact.  `float` enters in two places: the
  confidence scorer, whose properties of interest are order/range facts
  preserved by exact arithmetic, and the RBF gas bump, whose exact value
  matters and is therefore modelled with true IEEE-754 binary64 rounding
  (`roundDouble`: round to nearest, ties to even, normal range).
* `time.time()` is passed explicitly as a `now : ℚ` parameter.
* Python `dict` is modelled as an association list in insertion order
  (CPython dicts preserve insertion order; updating an existing key keeps its
  position, a new key is appended).
* Division in `ℚ` is total (`x / 0 = 0`) whereas `Decimal` raises; every claim
  below is stated on inputs whose denominators are nonzero, and the paths on
  which Python raises and catches (`calculate_optimal_input`) carry explicit
  guards returning the `0` sentinel that the `except` handler returns.
* `Decimal ** Decimal('0.5')` (a correctly rounded square root) is modelled by
  an explicit square-root parameter `sqrtQ : ℚ → ℚ`; theorems either hold for
  every such function or are evaluated at perfect squares, where the rounded
  root is exact (witnessed by `sqrtD`).
-/

/-! ## Pool state and AMM math (`src/agents/agent_mev_calculator.py`) -/

/-- `PoolState` dataclass (agent_mev_calculator.py lines 45-51). -/
structure PoolState where
  reserve_in : ℚ
  reserve_out : ℚ
  fee_rate : ℚ
  last_update : ℚ
deriving Repr, DecidableEq

/-- `AgentMEVCalculator.calc_slippage` (agent_mev_calculator.py lines 104-129).
Returns `(amount_out, slippage_percentage)`; `(0, 1)` marks an invalid or
drained pool. -/
def calc_slippage (amount_in reserve_in reserve_out fee_rate : ℚ) : ℚ × ℚ :=
  if reserve_in ≤ 0 ∨ reserve_out ≤ 0 then (0, 1)
  else
    let price_before := reserve_out / reserve_in
    let amount_in_with_fee := amount_in * (1 - fee_rate)
    let amount_out := (amount_in_with_fee * reserve_out) / (reserve_in + amount_in_with_fee)
    let new_reserve_in := reserve_in + amount_in
    let new_reserve_out := reserve_out - amount_out
    if new_reserve_out ≤ 0 then (0, 1)
    else (amount_out, |new_reserve_out / new_reserve_in - price_before| / price_before)

/-- The raw constant-product output with fee, before the drained-pool guard. -/
def ammOut (amount_in reserve_in reserve_out fee_rate : ℚ) : ℚ :=
  amount_in * (1 - fee_rate) * reserve_out / (reserve_in + amount_in * (1 - fee_rate))

lemma ammOut_nonneg {a ri ro f : ℚ} (ha : 0 < a) (hri : 0 < ri) (hro : 0 < ro)
    (hf1 : f < 1) : 0 ≤ ammOut a ri ro f := by
  have hu : 0 < a * (1 - f) := mul_pos ha (by linarith)
  have hden : 0 < ri + a * (1 - f) := by linarith
  exact div_nonneg (by positivity) hden.le

lemma ammOut_lt_reserve_out {a ri ro f : ℚ} (ha : 0 < a) (hri : 0 < ri) (hro : 0 < ro)
    (hf1 : f < 1) : ammOut a ri ro f < ro := by
  have hu : 0 < a * (1 - f) := mul_pos ha (by linarith)
  have hden : 0 < ri + a * (1 - f) := by linarith
  rw [ammOut, div_lt_iff hden]
  nlinarith

lemma calc_slippage_fst {a ri ro f : ℚ} (ha : 0 < a) (hri : 0 < ri) (hro : 0 < ro)
    (hf1 : f < 1) : (calc_slippage a ri ro f).1 = ammOut a ri ro f := by
  have hout := ammOut_lt_reserve_out ha hri hro hf1
  rw [calc_slippage, if_neg (by push_neg; exact ⟨hri, hro⟩)]
  simp only
  rw [if_neg (by rw [ammOut] at hout; linarith)]
  rw [ammOut]

/-- C1: for `amount_in > 0`, positive reserves and `fee_rate ∈ [0,1)`, the
`amount_out` component of `calc_slippage` satisfies `0 ≤ amount_out < reserve_out`:
a swap never drains the output reserve completely. -/
theorem calc_slippage_output_bounds (a ri ro f : ℚ) (ha : 0 < a) (hri : 0 < ri)
    (hro : 0 < ro) (hf0 : 0 ≤ f) (hf1 : f < 1) :
    0 ≤ (calc_slippage a ri ro f).1 ∧ (calc_slippage a ri ro f).1 < ro := by
  rw [calc_slippage_fst ha hri hro hf1]
  exact ⟨ammOut_nonneg ha hri hro hf1, ammOut_lt_reserve_out ha hri hro hf1⟩

/-- Witness for C1 at `amount_in = 3`, reserves `1000`/`900`, fee `3/1000`. -/
theorem calc_slippage_output_bounds_witness :
    0 ≤ (calc_slippage 3 1000 900 (3/1000)).1 ∧ (calc_slippage 3 1000 900 (3/1000)).1 < 900 :=
  calc_slippage_output_bounds 3 1000 900 (3/1000) (by norm_num) (by norm_num)
    (by norm_num) (by norm_num) (by norm_num)

/-- C7: for fixed positive reserves and `fee_rate ∈ [0,1)`, the swap output of
`calc_slippage` is strictly increasing in `amount_in` on `amount_in > 0`. -/
theorem calc_slippage_strict_mono (ri ro f x y : ℚ) (hri : 0 < ri) (hro : 0 < ro)
    (hf0 : 0 ≤ f) (hf1 : f < 1) (hx : 0 < x) (hxy : x < y) :
    (calc_slippage x ri ro f).1 < (calc_slippage y ri ro f).1 := by
  have hy : 0 < y := hx.trans hxy
  rw [calc_slippage_fst hx hri hro hf1, calc_slippage_fst hy hri hro hf1]
  have hfpos : 0 < 1 - f := by linarith
  have hu : 0 < x * (1 - f) := mul_pos hx hfpos
  have hv : 0 < y * (1 - f) := mul_pos hy hfpos
  have huv : x * (1 - f) < y * (1 - f) := by nlinarith
  rw [ammOut, ammOut, div_lt_div_iff (by linarith) (by linarith)]
  have key : 0 < (y * (1 - f) - x * (1 - f)) * ro * ri :=
    mul_pos (mul_pos (sub_pos.mpr huv) hro) hri
  nlinarith [key]

/-- Witness for C7 at `x = 2 < y = 5`, reserves `1000`/`900`, fee `3/1000`. -/
theorem calc_slippage_strict_mono_witness :
    (calc_slippage 2 1000 900 (3/1000)).1 < (calc_slippage 5 1000 900 (3/1000)).1 :=
  calc_slippage_strict_mono 1000 900 (3/1000) 2 5 (by norm_num) (by norm_num)
    (by norm_num) (by norm_num) (by norm_num) (by norm_num)

/-- Model of `Decimal('x') ** Decimal('0.5')` (a correctly rounded square root
at 50 significant digits).  It is exact on rationals whose numerator and
denominator are perfect squares, which is the only place this development
evaluates it; elsewhere it returns the 0 sentinel (theorems that depend on the
rounded value at other points quantify over an arbitrary `sqrtQ` instead). -/
def sqrtD (q : ℚ) : ℚ :=
  let n := Nat.sqrt q.num.toNat
  let d := Nat.sqrt q.den
  if 0 ≤ q.num ∧ (n * n : ℤ) = q.num ∧ d * d = q.den then (n : ℚ) / (d : ℚ) else 0

/-- `AgentMEVCalculator.calculate_optimal_input` (agent_mev_calculator.py lines
141-176), parametrised by the square-root function `sqrtQ` that models
`** Decimal('0.5')`.  The `try/except` that catches `DivisionByZero` (a zero
`reserve_in` or a zero `price_a * price_b`) and `InvalidOperation` (a negative
radicand) and returns `Decimal('0')` is modelled by the explicit guards
returning 0 on exactly those conditions. -/
def calculate_optimal_input (sqrtQ : ℚ → ℚ) (pool_a pool_b : PoolState) : ℚ :=
  if pool_a.reserve_in = 0 ∨ pool_b.reserve_in = 0 then 0
  else
    let price_a := pool_a.reserve_out / pool_a.reserve_in
    let price_b := pool_b.reserve_out / pool_b.reserve_in
    if price_b ≤ price_a then 0
    else
      let k_a := pool_a.reserve_in * pool_a.reserve_out
      if price_a * price_b = 0 ∨ k_a * (price_b - price_a) / (price_a * price_b) < 0 then 0
      else
        let optimal := sqrtQ (k_a * (price_b - price_a) / (price_a * price_b))
        let max_input := min (pool_a.reserve_in * (1/10)) (pool_b.reserve_in * (1/10))
        min optimal max_input

/-- C6: with positive reserves, whenever pool B's marginal price is at most
pool A's (in particular when they are exactly equal), `calculate_optimal_input`
returns 0 — for every square-root function, i.e. regardless of how the
`** Decimal('0.5')` result rounds; every numeric-failure path also returns 0
(the function is total and the guards above return the `except` handler's 0). -/
theorem calculate_optimal_input_no_arb (sqrtQ : ℚ → ℚ) (pa pb : PoolState)
    (h1 : 0 < pa.reserve_in) (h3 : 0 < pb.reserve_in)
    (hle : pb.reserve_out / pb.reserve_in ≤ pa.reserve_out / pa.reserve_in) :
    calculate_optimal_input sqrtQ pa pb = 0 := by
  simp only [calculate_optimal_input]
  rw [if_neg (by push_neg; exact ⟨h1.ne', h3.ne'⟩), if_pos hle]

/-- Witness for C6: two pools with identical reserves (equal prices). -/
theorem calculate_optimal_input_no_arb_witness :
    calculate_optimal_input sqrtD ⟨1000, 900, 0, 0⟩ ⟨1000, 900, 0, 0⟩ = 0 :=
  calculate_optimal_input_no_arb sqrtD ⟨1000, 900, 0, 0⟩ ⟨1000, 900, 0, 0⟩
    (by norm_num) (by norm_num) (by norm_num)

/-! ## Simulation and confidence scoring -/

/-- The result dictionary of `AgentMEVCalculator.simulate_arbitrage`
(agent_mev_calculator.py lines 178-219).  The failure dictionaries carry only
`success = False`; their numeric fields are never read by the code, so they
default to 0 here. -/
structure SimResult where
  success : Bool
  input_amount : ℚ := 0
  amount_out_a : ℚ := 0
  amount_out_b : ℚ := 0
  gross_profit : ℚ := 0
  gas_cost : ℚ := 0
  net_profit : ℚ := 0
  slippage_a : ℚ := 0
  slippage_b : ℚ := 0
  profit_margin : ℚ := 0
deriving Repr, DecidableEq

/-- A `{"success": False, ...}` return value of `simulate_arbitrage`. -/
def failedSim : SimResult := { success := false }

/-- The `AgentMEVCalculator` configuration fields read by the calculator
(agent_mev_calculator.py lines 64-67). -/
structure CalcConfig where
  min_profit_threshold : ℚ
  max_gas_price_gwei : ℚ
  estimated_gas_usage : ℚ
  slippage_tolerance : ℚ
deriving Repr, DecidableEq

/-- `AgentMEVCalculator.simulate_arbitrage` (agent_mev_calculator.py lines
178-219).  `gas_cost = estimated_gas_usage * max_gas_price_gwei * 1e9 / 1e18`,
written here as the exact `usage * gwei / 10^9` (the float product is exact for
the integer magnitudes involved). -/
def simulate_arbitrage (cfg : CalcConfig) (pool_a pool_b : PoolState)
    (input_amount : ℚ) : SimResult :=
  let legA := calc_slippage input_amount pool_a.reserve_in pool_a.reserve_out pool_a.fee_rate
  if legA.1 ≤ 0 then failedSim
  else
    let legB := calc_slippage legA.1 pool_b.reserve_out pool_b.reserve_in pool_b.fee_rate
    if legB.1 ≤ 0 then failedSim
    else
      let gross_profit := legB.1 - input_amount
      let gas_cost := cfg.estimated_gas_usage * cfg.max_gas_price_gwei / 10 ^ 9
      let net_profit := gross_profit - gas_cost
      if cfg.slippage_tolerance < legA.2 ∨ cfg.slippage_tolerance < legB.2 then failedSim
      else
        { success := true
          input_amount := input_amount
          amount_out_a := legA.1
          amount_out_b := legB.1
          gross_profit := gross_profit
          gas_cost := gas_cost
          net_profit := net_profit
          slippage_a := legA.2
          slippage_b := legB.2
          profit_margin := if 0 < input_amount then net_profit / input_amount else 0 }

/-- `AgentMEVCalculator.calculate_confidence_score` (agent_mev_calculator.py
lines 221-252), with `time.time()` passed as `now`.  Python floats are
modelled as exact rationals. -/
def calculate_confidence_score (now : ℚ) (simres : SimResult)
    (pool_a pool_b : PoolState) : ℚ :=
  if simres.success = false then 0
  else
    let score1 := 1 * min (simres.profit_margin * 10) 1
    let avg_slippage := (simres.slippage_a + simres.slippage_b) / 2
    let score2 := score1 * max (1 - avg_slippage * 20) (1/10)
    let min_liquidity := min pool_a.reserve_in pool_b.reserve_in
    let liquidity_score := min (min_liquidity / 1000) 1
    let score3 := score2 * liquidity_score
    let age_a := now - pool_a.last_update
    let age_b := now - pool_b.last_update
    let max_age := max age_a age_b
    let time_score := max (1 - max_age / 60) (1/10)
    let score4 := score3 * time_score
    min score4 1

/-- The `AgentMEVCalculator` configuration of the module's `__main__` block
(agent_mev_calculator.py lines 364-369). -/
def cfgDefault : CalcConfig :=
  { min_profit_threshold := 1/100
    max_gas_price_gwei := 50
    estimated_gas_usage := 300000
    slippage_tolerance := 5/1000 }

/-- A deep pool (reserves 10^6 each, fee 0.3%) used as a concrete input. -/
def poolDeep : PoolState := ⟨1000000, 1000000, 3/1000, 0⟩

/-- Counterexample to C4: a reachable simulation result (a successful
round-trip whose gas cost exceeds its gross profit, so `profit_margin < 0`)
is scored strictly below 0 — the final `min(score, 1.0)` clamps only from
above, so the score is not in `[0,1]`. -/
theorem calculate_confidence_score_not_in_unit_interval :
    calculate_confidence_score 0 (simulate_arbitrage cfgDefault poolDeep poolDeep 1)
      poolDeep poolDeep < 0 := by
  norm_num [calculate_confidence_score, simulate_arbitrage, calc_slippage, cfgDefault,
    poolDeep, failedSim, min_def, max_def, abs_of_nonneg, abs_of_pos]

/-- C4 amended: the confidence score always lies in `(-∞, 1]`, and it lies in
`[0,1]` whenever the simulation's `profit_margin` is nonnegative and the two
pools' input reserves are nonnegative (for a failed simulation it is 0).  The
code's clamp `min(score, 1.0)` bounds the score above only; with a negative
profit margin the score is negative. -/
theorem calculate_confidence_score_range (now : ℚ) (simres : SimResult)
    (pa pb : PoolState) (hpm : 0 ≤ simres.profit_margin)
    (hra : 0 ≤ pa.reserve_in) (hrb : 0 ≤ pb.reserve_in) :
    0 ≤ calculate_confidence_score now simres pa pb ∧
      calculate_confidence_score now simres pa pb ≤ 1 := by
  simp only [calculate_confidence_score]
  split
  · norm_num
  · refine ⟨le_min ?_ zero_le_one, min_le_right _ _⟩
    have h1 : 0 ≤ 1 * min (simres.profit_margin * 10) 1 := by
      rw [one_mul]; exact le_min (by positivity) zero_le_one
    have h2 : (0:ℚ) ≤ max (1 - (simres.slippage_a + simres.slippage_b) / 2 * 20) (1/10) :=
      le_trans (by norm_num) (le_max_right _ _)
    have h3 : 0 ≤ min (min pa.reserve_in pb.reserve_in / 1000) 1 :=
      le_min (div_nonneg (le_min hra hrb) (by norm_num)) zero_le_one
    have h4 : (0:ℚ) ≤
        max (1 - max (now - pa.last_update) (now - pb.last_update) / 60) (1/10) :=
      le_trans (by norm_num) (le_max_right _ _)
    exact mul_nonneg (mul_nonneg (mul_nonneg h1 h2) h3) h4

/-- Witness for the amended C4 at a successful simulation with nonnegative
profit margin. -/
theorem calculate_confidence_score_range_witness :
    0 ≤ calculate_confidence_score 0
        { success := true, profit_margin := 1/2 } poolDeep poolDeep ∧
      calculate_confidence_score 0
        { success := true, profit_margin := 1/2 } poolDeep poolDeep ≤ 1 :=
  calculate_confidence_score_range 0 { success := true, profit_margin := 1/2 }
    poolDeep poolDeep (by norm_num) (by norm_num [poolDeep]) (by norm_num [poolDeep])

/-! ## The opportunity scanner (`find_arbitrage_opportunities`) -/

/-- One `pools_data[pool_id]` value (agent_mev_calculator.py lines 261-267):
`reserve_in` and `reserve_out` are required keys, `fee_rate` defaults to
`'0.003'` and `timestamp` to `time.time()` when absent. -/
structure PoolData where
  reserve_in : ℚ
  reserve_out : ℚ
  fee_rate : Option ℚ := none
  timestamp : Option ℚ := none
deriving Repr, DecidableEq

/-- The `PoolState(...)` constructed from one `pools_data` entry (lines
262-267). -/
def mkPoolState (now : ℚ) (d : PoolData) : PoolState :=
  { reserve_in := d.reserve_in
    reserve_out := d.reserve_out
    fee_rate := d.fee_rate.getD (3/1000)
    last_update := d.timestamp.getD now }

/-- CPython dict assignment `d[k] = v` on an association list kept in
insertion order: an existing key is updated in place, a new key is appended. -/
def dictInsert (k : String) (v : PoolState) :
    List (String × PoolState) → List (String × PoolState)
  | [] => [(k, v)]
  | (a, w) :: t => if a = k then (k, v) :: t else (a, w) :: dictInsert k v t

/-- The `self.pool_states` update loop of `find_arbitrage_opportunities`
(lines 260-267). -/
def updateStates (now : ℚ) (pools_data : List (String × PoolData))
    (states : List (String × PoolState)) : List (String × PoolState) :=
  pools_data.foldl (fun s kv => dictInsert kv.1 (mkPoolState now kv.2) s) states

/-- The pair enumeration `for i in range(n): for j in range(i+1, n)`
(lines 270-274). -/
def pairsOf {α : Type} : List α → List (α × α)
  | [] => []
  | x :: xs => (xs.map fun y => (x, y)) ++ pairsOf xs

/-- `ArbitrageOpportunity` dataclass (agent_mev_calculator.py lines 27-43). -/
structure ArbitrageOpportunity where
  token_a : String
  token_b : String
  dex_a : String
  dex_b : String
  price_a : ℚ
  price_b : ℚ
  optimal_input : ℚ
  expected_profit : ℚ
  gas_cost : ℚ
  net_profit : ℚ
  slippage_a : ℚ
  slippage_b : ℚ
  confidence_score : ℚ
  execution_priority : ℤ
deriving Repr, DecidableEq

/-- Python `int()` on a number: truncation toward zero. -/
def pyInt (q : ℚ) : ℤ := if q < 0 then ⌈q⌉ else ⌊q⌋

/-- `pool_id.split('_')[i]`.  Python raises `IndexError` on a pool id with too
few components (`split('_')[1]` on an id without an underscore); every pool id
considered here has the documented `tokenA_tokenB_dex` shape, on which `getD`
agrees with Python indexing. -/
def idPart (pool_id : String) (i : Nat) : String := (pool_id.splitOn "_").getD i ""

/-- The `ArbitrageOpportunity(...)` record built for an accepted pair
(lines 287-302). -/
def mkOpportunity (a_id b_id : String) (pool_a pool_b : PoolState)
    (optimal_input : ℚ) (simres : SimResult) (confidence : ℚ) :
    ArbitrageOpportunity :=
  { token_a := idPart a_id 0
    token_b := idPart a_id 1
    dex_a := if 2 < (a_id.splitOn "_").length then idPart a_id 2 else "unknown"
    dex_b := if 2 < (b_id.splitOn "_").length then idPart b_id 2 else "unknown"
    price_a := pool_a.reserve_out / pool_a.reserve_in
    price_b := pool_b.reserve_out / pool_b.reserve_in
    optimal_input := optimal_input
    expected_profit := simres.gross_profit
    gas_cost := simres.gas_cost
    net_profit := simres.net_profit
    slippage_a := simres.slippage_a
    slippage_b := simres.slippage_b
    confidence_score := confidence
    execution_priority := pyInt (confidence * 100) }

/-- The body of the pair loop (lines 276-304): optimal input, simulation,
strict profit filter, confidence scoring. -/
def scanPair (sqrtQ : ℚ → ℚ) (cfg : CalcConfig) (now : ℚ)
    (a b : String × PoolState) : Option ArbitrageOpportunity :=
  let optimal_input := calculate_optimal_input sqrtQ a.2 b.2
  if 0 < optimal_input then
    let simres := simulate_arbitrage cfg a.2 b.2 optimal_input
    if simres.success = true ∧ cfg.min_profit_threshold < simres.net_profit then
      some (mkOpportunity a.1 b.1 a.2 b.2 optimal_input simres
        (calculate_confidence_score now simres a.2 b.2))
    else none
  else none

/-- The comparison of `opportunities.sort(key=lambda x: x.net_profit,
reverse=True)`: descending net profit.  Python list sort is stable;
`List.insertionSort` with this relation places an earlier element before any
later element with the same key, so it is extensionally the same stable
sort. -/
def netGe (a b : ArbitrageOpportunity) : Prop := b.net_profit ≤ a.net_profit

instance : DecidableRel netGe :=
  fun a b => inferInstanceAs (Decidable (b.net_profit ≤ a.net_profit))

instance : IsTotal ArbitrageOpportunity netGe := ⟨fun a b => le_total b.net_profit a.net_profit⟩

instance : IsTrans ArbitrageOpportunity netGe := ⟨fun _ _ _ h1 h2 => le_trans h2 h1⟩

/-- The `opportunities` accumulation loop over the enumerated pairs
(lines 258, 271-304): each accepted pair appends one record. -/
def collectOpportunities (sqrtQ : ℚ → ℚ) (cfg : CalcConfig) (now : ℚ) :
    List ((String × PoolState) × (String × PoolState)) → List ArbitrageOpportunity
  | [] => []
  | p :: rest =>
    match scanPair sqrtQ cfg now p.1 p.2 with
    | some o => o :: collectOpportunities sqrtQ cfg now rest
    | none => collectOpportunities sqrtQ cfg now rest

/-- `AgentMEVCalculator.find_arbitrage_opportunities` (agent_mev_calculator.py
lines 254-312), with the mutated `self.pool_states` passed in and returned
alongside the opportunity list. -/
def find_arbitrage_opportunities (sqrtQ : ℚ → ℚ) (cfg : CalcConfig) (now : ℚ)
    (pool_states : List (String × PoolState))
    (pools_data : List (String × PoolData)) :
    List ArbitrageOpportunity × List (String × PoolState) :=
  let states := updateStates now pools_data pool_states
  let opportunities := collectOpportunities sqrtQ cfg now (pairsOf states)
  (List.insertionSort netGe opportunities, states)

lemma collect_nil (sqrtQ : ℚ → ℚ) (cfg : CalcConfig) (now : ℚ) :
    collectOpportunities sqrtQ cfg now [] = [] := rfl

lemma collect_cons_some {sqrtQ : ℚ → ℚ} {cfg : CalcConfig} {now : ℚ}
    (a b : String × PoolState)
    (rest : List ((String × PoolState) × (String × PoolState)))
    (o : ArbitrageOpportunity) (h : scanPair sqrtQ cfg now a b = some o) :
    collectOpportunities sqrtQ cfg now ((a, b) :: rest) =
      o :: collectOpportunities sqrtQ cfg now rest := by
  simp only [collectOpportunities]
  rw [h]

lemma collect_cons_none {sqrtQ : ℚ → ℚ} {cfg : CalcConfig} {now : ℚ}
    (a b : String × PoolState)
    (rest : List ((String × PoolState) × (String × PoolState)))
    (h : scanPair sqrtQ cfg now a b = none) :
    collectOpportunities sqrtQ cfg now ((a, b) :: rest) =
      collectOpportunities sqrtQ cfg now rest := by
  simp only [collectOpportunities]
  rw [h]

lemma mem_collectOpportunities {sqrtQ : ℚ → ℚ} {cfg : CalcConfig} {now : ℚ}
    {l : List ((String × PoolState) × (String × PoolState))}
    {o : ArbitrageOpportunity} (h : o ∈ collectOpportunities sqrtQ cfg now l) :
    ∃ p ∈ l, scanPair sqrtQ cfg now p.1 p.2 = some o := by
  induction l with
  | nil => simp [collectOpportunities] at h
  | cons p rest ih =>
    rw [collectOpportunities] at h
    rcases hsp : scanPair sqrtQ cfg now p.1 p.2 with _ | o2
    · rw [hsp] at h
      obtain ⟨q, hq, hqs⟩ := ih h
      exact ⟨q, List.mem_cons_of_mem _ hq, hqs⟩
    · rw [hsp] at h
      rcases List.mem_cons.mp h with h1 | h1
      · exact ⟨p, List.mem_cons_self _ _, by rw [hsp, h1]⟩
      · obtain ⟨q, hq, hqs⟩ := ih h1
        exact ⟨q, List.mem_cons_of_mem _ hq, hqs⟩

lemma scanPair_net_profit {sqrtQ : ℚ → ℚ} {cfg : CalcConfig} {now : ℚ}
    {a b : String × PoolState} {o : ArbitrageOpportunity}
    (h : scanPair sqrtQ cfg now a b = some o) :
    cfg.min_profit_threshold < o.net_profit := by
  rw [scanPair] at h
  simp only at h
  split at h
  · split at h
    · rename_i hcond
      cases h
      exact hcond.2
    · exact absurd h (by simp)
  · exact absurd h (by simp)

/-- C5: every opportunity in the list returned by
`find_arbitrage_opportunities` has `net_profit` strictly greater than the
configured `min_profit_threshold` (so with threshold `0.01` a candidate whose
simulated net profit is `0.005` cannot appear in the results). -/
theorem find_arbitrage_opportunities_profit_filter (sqrtQ : ℚ → ℚ)
    (cfg : CalcConfig) (now : ℚ) (states : List (String × PoolState))
    (data : List (String × PoolData)) (o : ArbitrageOpportunity)
    (h : o ∈ (find_arbitrage_opportunities sqrtQ cfg now states data).1) :
    cfg.min_profit_threshold < o.net_profit := by
  simp only [find_arbitrage_opportunities] at h
  have h2 := (List.perm_insertionSort netGe _).mem_iff.mp h
  obtain ⟨p, _, hp⟩ := mem_collectOpportunities h2
  exact scanPair_net_profit hp

lemma updateStates_nil (now : ℚ) (l : List (String × PoolState)) :
    updateStates now [] l = l := rfl

lemma updateStates_cons (now : ℚ) (kv : String × PoolData)
    (d : List (String × PoolData)) (l : List (String × PoolState)) :
    updateStates now (kv :: d) l =
      updateStates now d (dictInsert kv.1 (mkPoolState now kv.2) l) := rfl

lemma mem_keys_dictInsert_self (k : String) (v : PoolState)
    (l : List (String × PoolState)) : k ∈ (dictInsert k v l).map Prod.fst := by
  induction l with
  | nil => simp [dictInsert]
  | cons aw t ih =>
    obtain ⟨a, w⟩ := aw
    rw [dictInsert]
    split
    · rw [List.map_cons]
      exact List.mem_cons_self _ _
    · rw [List.map_cons]
      exact List.mem_cons_of_mem _ ih

lemma mem_keys_dictInsert_mono {p : String} (k : String) (v : PoolState)
    {l : List (String × PoolState)} (h : p ∈ l.map Prod.fst) :
    p ∈ (dictInsert k v l).map Prod.fst := by
  induction l with
  | nil => simp at h
  | cons aw t ih =>
    obtain ⟨a, w⟩ := aw
    rw [List.map_cons] at h
    rw [dictInsert]
    split
    · rename_i ha
      rw [ha] at h
      rw [List.map_cons]
      exact h
    · rw [List.map_cons]
      rcases List.mem_cons.mp h with h1 | h1
      · rw [h1]
        exact List.mem_cons_self _ _
      · exact List.mem_cons_of_mem _ (ih h1)

lemma dictInsert_idem (k : String) (v : PoolState) (l : List (String × PoolState)) :
    dictInsert k v (dictInsert k v l) = dictInsert k v l := by
  induction l with
  | nil => simp [dictInsert]
  | cons aw t ih =>
    obtain ⟨a, w⟩ := aw
    rw [dictInsert]
    split
    · rw [dictInsert, if_pos rfl]
    · rename_i ha
      rw [dictInsert, if_neg ha, ih]

lemma dictInsert_comm {k b : String} (hne : b ≠ k) (v u : PoolState)
    {l : List (String × PoolState)} (hk : k ∈ l.map Prod.fst) :
    dictInsert k v (dictInsert b u l) = dictInsert b u (dictInsert k v l) := by
  induction l with
  | nil => simp at hk
  | cons aw t ih =>
    obtain ⟨a, w⟩ := aw
    rw [List.map_cons] at hk
    by_cases hab : a = b
    · subst hab
      simp [dictInsert, hne]
    · by_cases hak : a = k
      · subst hak
        simp [dictInsert, hab, Ne.symm hne]
      · have hkt : k ∈ t.map Prod.fst := by
          rcases List.mem_cons.mp hk with h1 | h1
          · exact absurd h1.symm hak
          · exact h1
        simp [dictInsert, hab, hak, ih hkt]

lemma dictInsert_updateStates_comm (now : ℚ) {k : String} (v : PoolState)
    (d : List (String × PoolData)) {l : List (String × PoolState)}
    (hk : k ∈ l.map Prod.fst) (hd : ∀ kv ∈ d, kv.1 ≠ k) :
    dictInsert k v (updateStates now d l) = updateStates now d (dictInsert k v l) := by
  induction d generalizing l with
  | nil => rfl
  | cons kv rest ih =>
    rw [updateStates_cons, updateStates_cons]
    rw [ih (mem_keys_dictInsert_mono _ _ hk) (fun x hx => hd x (List.mem_cons_of_mem _ hx))]
    rw [dictInsert_comm (hd kv (List.mem_cons_self _ _)) _ _ hk]

lemma updateStates_idem (now : ℚ) (d : List (String × PoolData))
    (l : List (String × PoolState)) (hnd : (d.map Prod.fst).Nodup) :
    updateStates now d (updateStates now d l) = updateStates now d l := by
  induction d generalizing l with
  | nil => rfl
  | cons kv rest ih =>
    rw [List.map_cons, List.nodup_cons] at hnd
    rw [updateStates_cons, updateStates_cons]
    rw [dictInsert_updateStates_comm now _ rest (mem_keys_dictInsert_self _ _ _)
      (fun x hx h => hnd.1 (by rw [← h]; exact List.mem_map_of_mem Prod.fst hx))]
    rw [dictInsert_idem]
    exact ih _ hnd.2

/-- C2 amended: the scan output is sorted by `net_profit` descending, and for a
fixed `pools_data` snapshot (and fixed clock) an immediately repeated call —
which re-applies the same `self.pool_states` update — returns the identical
opportunity list.  Ties, however, are broken by pool-pair enumeration
(insertion) order alone: the sort key is only `net_profit` and Python's stable
sort never consults `confidence_score` (see the counterexample). -/
theorem find_arbitrage_opportunities_ordering (sqrtQ : ℚ → ℚ) (cfg : CalcConfig)
    (now : ℚ) (states : List (String × PoolState))
    (data : List (String × PoolData)) (hnd : (data.map Prod.fst).Nodup) :
    List.Sorted netGe (find_arbitrage_opportunities sqrtQ cfg now states data).1 ∧
    (find_arbitrage_opportunities sqrtQ cfg now
        (find_arbitrage_opportunities sqrtQ cfg now states data).2 data).1 =
      (find_arbitrage_opportunities sqrtQ cfg now states data).1 := by
  constructor
  · exact List.sorted_insertionSort netGe _
  · simp only [find_arbitrage_opportunities]
    rw [updateStates_idem now data states hnd]

lemma lookup_dictInsert_ne {k p : String} (hne : k ≠ p) (v : PoolState)
    (l : List (String × PoolState)) :
    (dictInsert k v l).lookup p = l.lookup p := by
  have hbeq : (p == k) = false := beq_eq_false_iff_ne.mpr (Ne.symm hne)
  induction l with
  | nil => simp [dictInsert, List.lookup, hbeq]
  | cons aw t ih =>
    obtain ⟨a, w⟩ := aw
    rw [dictInsert]
    split
    · rename_i ha
      subst ha
      simp [List.lookup, hbeq]
    · cases hpa : p == a
      · simp [List.lookup, hpa, ih]
      · simp [List.lookup, hpa]

lemma mem_keys_of_lookup {p : String} {st : PoolState}
    {l : List (String × PoolState)} (h : l.lookup p = some st) :
    p ∈ l.map Prod.fst := by
  induction l with
  | nil => simp [List.lookup] at h
  | cons aw t ih =>
    obtain ⟨a, w⟩ := aw
    rw [List.map_cons]
    rw [List.lookup] at h
    cases hpa : p == a
    · rw [hpa] at h
      exact List.mem_cons_of_mem _ (ih h)
    · have hpaeq : p = a := eq_of_beq hpa
      rw [hpaeq]
      exact List.mem_cons_self _ _

lemma lookup_updateStates_not_mem (now : ℚ) (d : List (String × PoolData))
    {l : List (String × PoolState)} {p : String} {st : PoolState}
    (h : l.lookup p = some st) (hp : p ∉ d.map Prod.fst) :
    (updateStates now d l).lookup p = some st := by
  induction d generalizing l with
  | nil => exact h
  | cons kv rest ih =>
    rw [updateStates_cons]
    have hne : kv.1 ≠ p := fun heq => hp (by simp [← heq])
    exact ih ((lookup_dictInsert_ne hne _ l).trans h) (fun hmem => hp (by simp [hmem]))

lemma mem_keys_updateStates_mono (now : ℚ) (d : List (String × PoolData))
    {l : List (String × PoolState)} {p : String} (h : p ∈ l.map Prod.fst) :
    p ∈ (updateStates now d l).map Prod.fst := by
  induction d generalizing l with
  | nil => exact h
  | cons kv rest ih =>
    rw [updateStates_cons]
    exact ih (mem_keys_dictInsert_mono _ _ h)

/-- C10: pool state accumulates across scans.  A pool id stored by an earlier
`find_arbitrage_opportunities` call and absent from a later call's
`pools_data` argument keeps its previous `PoolState` unchanged in the later
call's `self.pool_states`, and its key is still present in the mapping whose
pairs the later scan enumerates (`pairsOf` runs over exactly these keys). -/
theorem find_arbitrage_opportunities_state_accumulates (sqrtQ : ℚ → ℚ)
    (cfg : CalcConfig) (now1 now2 : ℚ) (s0 : List (String × PoolState))
    (d1 d2 : List (String × PoolData)) (p : String) (st : PoolState)
    (h1 : ((find_arbitrage_opportunities sqrtQ cfg now1 s0 d1).2).lookup p = some st)
    (h2 : p ∉ d2.map Prod.fst) :
    ((find_arbitrage_opportunities sqrtQ cfg now2
        (find_arbitrage_opportunities sqrtQ cfg now1 s0 d1).2 d2).2).lookup p = some st ∧
    p ∈ ((find_arbitrage_opportunities sqrtQ cfg now2
        (find_arbitrage_opportunities sqrtQ cfg now1 s0 d1).2 d2).2).map Prod.fst := by
  simp only [find_arbitrage_opportunities] at h1 ⊢
  exact ⟨lookup_updateStates_not_mem now2 d2 h1 h2,
    mem_keys_updateStates_mono now2 d2 (mem_keys_of_lookup h1)⟩

/-! ## A concrete scan instance

Four pools over one token pair.  `d1`/`d3` quote marginal price `0.9`,
`d2`/`d4` quote `2.5`; the low/high pairs `(d1,d2)`, `(d1,d4)`, `(d3,d4)` each
yield `optimal_input = min(sqrt(640000), 100) = 100` and the identical
simulation, while the equal-price and reversed pairs are skipped.  `d1`,`d2`
are fresh at scan time and `d3`,`d4` are 120 s stale, so the three produced
opportunities tie on `net_profit` but differ in `confidence_score`. -/

lemma sqrtD_eval : sqrtD 640000 = 800 := by
  have h1 : ((640000:ℚ).num.toNat) = 640000 := rfl
  have h2 : Nat.sqrt 640000 = 800 := by norm_num
  have h3 : (640000:ℚ).den = 1 := rfl
  have h4 : (640000:ℚ).num = 640000 := rfl
  have h5 : Int.toNat 640000 = 640000 := rfl
  simp only [sqrtD, h1, h2, h3, h4, h5, Nat.sqrt_one]
  norm_num

/-- A scan configuration the constructor accepts: `min_profit_eth = '-1000'`,
zero gas price, slippage tolerance 1. -/
def cfgWide : CalcConfig :=
  { min_profit_threshold := -1000
    max_gas_price_gwei := 0
    estimated_gas_usage := 300000
    slippage_tolerance := 1 }

/-- The `pools_data` snapshot described above (scan time is 200). -/
def dataWide : List (String × PoolData) :=
  [("t_u_d1", { reserve_in := 1000, reserve_out := 900,
                fee_rate := some 0, timestamp := some 200 }),
   ("t_u_d2", { reserve_in := 1000, reserve_out := 2500,
                fee_rate := some 0, timestamp := some 200 }),
   ("t_u_d3", { reserve_in := 1000, reserve_out := 900,
                fee_rate := some 0, timestamp := some 80 }),
   ("t_u_d4", { reserve_in := 1000, reserve_out := 2500,
                fee_rate := some 0, timestamp := some 80 })]

/-- The `(net_profit, confidence_score)` profile of the scan on `dataWide`. -/
def scanWideProfile : List (ℚ × ℚ) :=
  (find_arbitrage_opportunities sqrtD cfgWide 200 [] dataWide).1.map
    fun o => (o.net_profit, o.confidence_score)

/-- Pool d1: price 0.9, fresh. -/
def ps1 : PoolState := ⟨1000, 900, 0, 200⟩
/-- Pool d2: price 2.5, fresh. -/
def ps2 : PoolState := ⟨1000, 2500, 0, 200⟩
/-- Pool d3: price 0.9, stale. -/
def ps3 : PoolState := ⟨1000, 900, 0, 80⟩
/-- Pool d4: price 2.5, stale. -/
def ps4 : PoolState := ⟨1000, 2500, 0, 80⟩

lemma statesWide_eval : updateStates 200 dataWide [] =
    [("t_u_d1", ps1), ("t_u_d2", ps2), ("t_u_d3", ps3), ("t_u_d4", ps4)] := by
  simp [updateStates, dataWide, dictInsert, mkPoolState, ps1, ps2, ps3, ps4]

/-- The common simulation of a 100-unit round trip from a price-0.9 pool into
a price-2.5 pool (fee 0, zero gas): it loses 4850/71 units. -/
def simLH : SimResult :=
  { success := true
    input_amount := 100
    amount_out_a := 900/11
    amount_out_b := 2250/71
    gross_profit := -(4850/71)
    gas_cost := 0
    net_profit := -(4850/71)
    slippage_a := 21/121
    slippage_b := 5031/80656
    profit_margin := -(97/142) }

lemma opt_low_high_12 : calculate_optimal_input sqrtD ps1 ps2 = 100 := by
  norm_num [calculate_optimal_input, ps1, ps2, sqrtD_eval, min_def]

lemma opt_low_high_14 : calculate_optimal_input sqrtD ps1 ps4 = 100 := by
  norm_num [calculate_optimal_input, ps1, ps4, sqrtD_eval, min_def]

lemma opt_low_high_34 : calculate_optimal_input sqrtD ps3 ps4 = 100 := by
  norm_num [calculate_optimal_input, ps3, ps4, sqrtD_eval, min_def]

lemma opt_eq_13 : calculate_optimal_input sqrtD ps1 ps3 = 0 := by
  norm_num [calculate_optimal_input, ps1, ps3]

lemma opt_eq_24 : calculate_optimal_input sqrtD ps2 ps4 = 0 := by
  norm_num [calculate_optimal_input, ps2, ps4]

lemma opt_rev_23 : calculate_optimal_input sqrtD ps2 ps3 = 0 := by
  norm_num [calculate_optimal_input, ps2, ps3]

lemma sim_eval_12 : simulate_arbitrage cfgWide ps1 ps2 100 = simLH := by
  norm_num [simulate_arbitrage, calc_slippage, cfgWide, ps1, ps2, simLH, failedSim,
    abs_of_nonneg, abs_of_pos]

lemma sim_eval_14 : simulate_arbitrage cfgWide ps1 ps4 100 = simLH := by
  norm_num [simulate_arbitrage, calc_slippage, cfgWide, ps1, ps4, simLH, failedSim,
    abs_of_nonneg, abs_of_pos]

lemma sim_eval_34 : simulate_arbitrage cfgWide ps3 ps4 100 = simLH := by
  norm_num [simulate_arbitrage, calc_slippage, cfgWide, ps3, ps4, simLH, failedSim,
    abs_of_nonneg, abs_of_pos]

lemma conf_eval_12 : calculate_confidence_score 200 simLH ps1 ps2 = -(97/142) := by
  norm_num [calculate_confidence_score, simLH, ps1, ps2, min_def, max_def]

lemma conf_eval_14 : calculate_confidence_score 200 simLH ps1 ps4 = -(97/1420) := by
  norm_num [calculate_confidence_score, simLH, ps1, ps4, min_def, max_def]

lemma conf_eval_34 : calculate_confidence_score 200 simLH ps3 ps4 = -(97/1420) := by
  norm_num [calculate_confidence_score, simLH, ps3, ps4, min_def, max_def]

lemma mkOpportunity_net_profit (a b : String) (pa pb : PoolState) (oi : ℚ)
    (s : SimResult) (c : ℚ) :
    (mkOpportunity a b pa pb oi s c).net_profit = s.net_profit := rfl

lemma mkOpportunity_confidence (a b : String) (pa pb : PoolState) (oi : ℚ)
    (s : SimResult) (c : ℚ) :
    (mkOpportunity a b pa pb oi s c).confidence_score = c := rfl

lemma scanPair_eval_12 : scanPair sqrtD cfgWide 200 ("t_u_d1", ps1) ("t_u_d2", ps2) =
    some (mkOpportunity "t_u_d1" "t_u_d2" ps1 ps2 100 simLH (-(97/142))) := by
  rw [scanPair]
  simp only [opt_low_high_12, sim_eval_12, conf_eval_12]
  norm_num [simLH, cfgWide]

lemma scanPair_eval_14 : scanPair sqrtD cfgWide 200 ("t_u_d1", ps1) ("t_u_d4", ps4) =
    some (mkOpportunity "t_u_d1" "t_u_d4" ps1 ps4 100 simLH (-(97/1420))) := by
  rw [scanPair]
  simp only [opt_low_high_14, sim_eval_14, conf_eval_14]
  norm_num [simLH, cfgWide]

lemma scanPair_eval_34 : scanPair sqrtD cfgWide 200 ("t_u_d3", ps3) ("t_u_d4", ps4) =
    some (mkOpportunity "t_u_d3" "t_u_d4" ps3 ps4 100 simLH (-(97/1420))) := by
  rw [scanPair]
  simp only [opt_low_high_34, sim_eval_34, conf_eval_34]
  norm_num [simLH, cfgWide]

lemma scanPair_eval_13 : scanPair sqrtD cfgWide 200 ("t_u_d1", ps1) ("t_u_d3", ps3) = none := by
  rw [scanPair]
  simp only [opt_eq_13]
  norm_num

lemma scanPair_eval_24 : scanPair sqrtD cfgWide 200 ("t_u_d2", ps2) ("t_u_d4", ps4) = none := by
  rw [scanPair]
  simp only [opt_eq_24]
  norm_num

lemma scanPair_eval_23 : scanPair sqrtD cfgWide 200 ("t_u_d2", ps2) ("t_u_d3", ps3) = none := by
  rw [scanPair]
  simp only [opt_rev_23]
  norm_num

lemma scanWide_unfold : (find_arbitrage_opportunities sqrtD cfgWide 200 [] dataWide).1 =
    List.insertionSort netGe
      (collectOpportunities sqrtD cfgWide 200 (pairsOf (updateStates 200 dataWide []))) := by
  simp only [find_arbitrage_opportunities]

lemma pairsWide_eval :
    pairsOf [("t_u_d1", ps1), ("t_u_d2", ps2), ("t_u_d3", ps3), ("t_u_d4", ps4)] =
    [(("t_u_d1", ps1), ("t_u_d2", ps2)), (("t_u_d1", ps1), ("t_u_d3", ps3)),
     (("t_u_d1", ps1), ("t_u_d4", ps4)), (("t_u_d2", ps2), ("t_u_d3", ps3)),
     (("t_u_d2", ps2), ("t_u_d4", ps4)), (("t_u_d3", ps3), ("t_u_d4", ps4))] := by
  simp only [pairsOf, List.map_cons, List.map_nil, List.cons_append, List.nil_append,
    List.append_nil]

lemma scanWide_filter :
    collectOpportunities sqrtD cfgWide 200
      (pairsOf [("t_u_d1", ps1), ("t_u_d2", ps2), ("t_u_d3", ps3), ("t_u_d4", ps4)]) =
    [mkOpportunity "t_u_d1" "t_u_d2" ps1 ps2 100 simLH (-(97/142)),
     mkOpportunity "t_u_d1" "t_u_d4" ps1 ps4 100 simLH (-(97/1420)),
     mkOpportunity "t_u_d3" "t_u_d4" ps3 ps4 100 simLH (-(97/1420))] := by
  rw [pairsWide_eval, collect_cons_some _ _ _ _ scanPair_eval_12,
    collect_cons_none _ _ _ scanPair_eval_13, collect_cons_some _ _ _ _ scanPair_eval_14,
    collect_cons_none _ _ _ scanPair_eval_23, collect_cons_none _ _ _ scanPair_eval_24,
    collect_cons_some _ _ _ _ scanPair_eval_34, collect_nil]

lemma scanWide_sort :
    List.insertionSort netGe
      [mkOpportunity "t_u_d1" "t_u_d2" ps1 ps2 100 simLH (-(97/142)),
       mkOpportunity "t_u_d1" "t_u_d4" ps1 ps4 100 simLH (-(97/1420)),
       mkOpportunity "t_u_d3" "t_u_d4" ps3 ps4 100 simLH (-(97/1420))] =
      [mkOpportunity "t_u_d1" "t_u_d2" ps1 ps2 100 simLH (-(97/142)),
       mkOpportunity "t_u_d1" "t_u_d4" ps1 ps4 100 simLH (-(97/1420)),
       mkOpportunity "t_u_d3" "t_u_d4" ps3 ps4 100 simLH (-(97/1420))] := by
  simp only [List.insertionSort, List.orderedInsert]
  norm_num [netGe, mkOpportunity_net_profit, simLH]

lemma scanWide_eval : (find_arbitrage_opportunities sqrtD cfgWide 200 [] dataWide).1 =
    [mkOpportunity "t_u_d1" "t_u_d2" ps1 ps2 100 simLH (-(97/142)),
     mkOpportunity "t_u_d1" "t_u_d4" ps1 ps4 100 simLH (-(97/1420)),
     mkOpportunity "t_u_d3" "t_u_d4" ps3 ps4 100 simLH (-(97/1420))] := by
  rw [scanWide_unfold, statesWide_eval, scanWide_filter, scanWide_sort]

/-- Witness for C2's amended theorem at the concrete `dataWide` snapshot. -/
theorem find_arbitrage_opportunities_ordering_witness :
    List.Sorted netGe (find_arbitrage_opportunities sqrtD cfgWide 200 [] dataWide).1 ∧
    (find_arbitrage_opportunities sqrtD cfgWide 200
        (find_arbitrage_opportunities sqrtD cfgWide 200 [] dataWide).2 dataWide).1 =
      (find_arbitrage_opportunities sqrtD cfgWide 200 [] dataWide).1 :=
  find_arbitrage_opportunities_ordering sqrtD cfgWide 200 [] dataWide
    (by simp [dataWide])

instance : Inhabited ArbitrageOpportunity :=
  ⟨⟨"", "", "", "", 0, 0, 0, 0, 0, 0, 0, 0, 0, 0⟩⟩

/-- Witness for C5 at the concrete `dataWide` snapshot, whose scan result is
nonempty: its first opportunity clears the configured threshold. -/
theorem find_arbitrage_opportunities_profit_filter_witness :
    cfgWide.min_profit_threshold <
      ((find_arbitrage_opportunities sqrtD cfgWide 200 [] dataWide).1.headI).net_profit :=
  find_arbitrage_opportunities_profit_filter sqrtD cfgWide 200 [] dataWide _
    (by rw [scanWide_eval]; simp)

lemma scanWide_snd : (find_arbitrage_opportunities sqrtD cfgWide 200 [] dataWide).2 =
    updateStates 200 dataWide [] := by
  simp only [find_arbitrage_opportunities]

/-- A later feed entry for an unrelated pool. -/
def pdX : PoolData := { reserve_in := 1, reserve_out := 1 }

/-- Witness for C10: after scanning `dataWide`, a second scan whose data only
mentions pool `x_y_d9` keeps `t_u_d1` with its previous state. -/
theorem find_arbitrage_opportunities_state_accumulates_witness :
    ((find_arbitrage_opportunities sqrtD cfgWide 300
        (find_arbitrage_opportunities sqrtD cfgWide 200 [] dataWide).2
        [("x_y_d9", pdX)]).2).lookup "t_u_d1" = some ps1 ∧
    "t_u_d1" ∈ ((find_arbitrage_opportunities sqrtD cfgWide 300
        (find_arbitrage_opportunities sqrtD cfgWide 200 [] dataWide).2
        [("x_y_d9", pdX)]).2).map Prod.fst :=
  find_arbitrage_opportunities_state_accumulates sqrtD cfgWide 200 300 [] dataWide
    [("x_y_d9", pdX)] "t_u_d1" ps1
    (by rw [scanWide_snd, statesWide_eval]; simp [List.lookup])
    (by simp)

/-- Counterexample to C2's tie-breaking clause: on `dataWide` the scan returns
three opportunities with identical `net_profit`; the sort key is only
`net_profit` and the stable sort keeps pair-enumeration order, so the first
returned opportunity has a strictly smaller `confidence_score` than the
second — the claimed confidence tie-break would have ordered them the other
way around. -/
theorem find_arbitrage_opportunities_tie_counterexample :
    scanWideProfile.length = 3 ∧
    (scanWideProfile.getD 0 (0, 0)).1 = (scanWideProfile.getD 1 (0, 0)).1 ∧
    (scanWideProfile.getD 0 (0, 0)).2 < (scanWideProfile.getD 1 (0, 0)).2 := by
  simp only [scanWideProfile, scanWide_eval, List.map_cons, List.map_nil,
    mkOpportunity_net_profit, mkOpportunity_confidence, List.length_cons,
    List.length_nil, List.getD_cons_zero, List.getD_cons_succ]
  norm_num [simLH]

/-! ## The orchestrator's execution dispatch (`master_agent_orchestrator.py`) -/

/-- Step 2 of `MasterAgentOrchestrator.run_coordination_cycle` (lines
272-275): detected opportunities are appended to `self.execution_queue` while
it holds fewer than 10 entries. -/
def enqueueOpportunities {α : Type} (opps queue : List α) : List α :=
  opps.foldl (fun q o => if q.length < 10 then q ++ [o] else q) queue

/-- Step 3 of `MasterAgentOrchestrator.run_coordination_cycle` (lines
277-284).  The loop pops `self.execution_queue` FIFO while it is nonempty and
`len(self.active_executions) < self.max_concurrent_executions`, and calls
`asyncio.create_task(self.coordinate_opportunity_execution(opportunity))`.
Under cooperative asyncio scheduling `create_task` only schedules the
coroutine: its body — which appends the execution entry to
`self.active_executions` — first runs once the current cycle suspends, and
this loop contains no `await`, so `len(self.active_executions)` stays at its
entry value `activeLen` for the entire loop.  `spawned` counts the created
tasks, all of which are in flight (scheduled, none completed) when the loop
exits; the result is (tasks spawned, remaining queue). -/
def executeStep3 {α : Type} : List α → Nat → Nat → Nat → Nat × List α
  | [], _, _, spawned => (spawned, [])
  | o :: rest, activeLen, maxConc, spawned =>
    if activeLen < maxConc then executeStep3 rest activeLen maxConc (spawned + 1)
    else (spawned, o :: rest)

/-- C3 fails on the code: in one coordination cycle that detects 10
opportunities with an empty queue, no prior active executions and the default
`max_concurrent_executions = 3`, the dispatch loop spawns all 10 execution
tasks — the `len(active_executions)` it checks grows only when a spawned task
later runs — so 10 tasks are in flight at the end of the loop, exceeding the
claimed bound of 3. -/
theorem coordination_cycle_spawns_past_limit :
    (executeStep3
      (enqueueOpportunities (List.replicate 10 (default : ArbitrageOpportunity)) [])
      0 3 0).1 = 10 ∧
    ¬ (executeStep3
      (enqueueOpportunities (List.replicate 10 (default : ArbitrageOpportunity)) [])
      0 3 0).1 ≤ 3 := by
  constructor <;> simp [enqueueOpportunities, executeStep3, List.replicate]

/-! ## Replace-by-fee submission (`atom-mev-protection.py`) -/

/-- The two RBF configuration values read by `_submit_with_rbf`
(atom-mev-protection.py lines 279, 311): `max_rbf_attempts` defaults to 3 and
`rbf_gas_increase_percent` to 15. -/
structure RbfConfig where
  max_rbf_attempts : Nat
  rbf_gas_increase_percent : ℚ
deriving Repr, DecidableEq

/-- Round a rational to the nearest integer, ties to even (the IEEE-754
default rounding applied to the scaled significand). -/
def roundNearestEven (x : ℚ) : ℤ :=
  if x - ⌊x⌋ < 1/2 then ⌊x⌋
  else if 1/2 < x - ⌊x⌋ then ⌊x⌋ + 1
  else if ⌊x⌋ % 2 = 0 then ⌊x⌋ else ⌊x⌋ + 1

/-- The IEEE-754 binary64 (Python `float`) value nearest to a rational:
round to nearest with ties to even on a 53-bit significand.  Exponents are
unbounded here, i.e. overflow and subnormals are not modelled; every value in
this development is a normal double far from either extreme. -/
def roundDouble (q : ℚ) : ℚ :=
  if q = 0 then 0
  else
    let s : ℚ := if q < 0 then -1 else 1
    let a := |q|
    let e : ℤ := Int.log 2 a
    s * (roundNearestEven (a * 2 ^ (52 - e)) : ℚ) * 2 ^ (e - 52)

lemma roundNearestEven_eq_floor (x : ℚ) (f : ℤ) (h1 : (f:ℚ) ≤ x)
    (h2 : x < (f:ℚ) + 1/2) : roundNearestEven x = f := by
  have hf : ⌊x⌋ = f := Int.floor_eq_iff.mpr ⟨h1, by linarith⟩
  rw [roundNearestEven, hf, if_pos (by linarith)]

lemma roundDouble_eq (q : ℚ) (hq : 0 < q) (e : ℤ) (h1 : (2:ℚ)^e ≤ q)
    (h2 : q < (2:ℚ)^(e+1)) (m : ℤ)
    (hm : roundNearestEven (q * (2:ℚ)^((52:ℤ) - e)) = m) :
    roundDouble q = (m:ℚ) * (2:ℚ)^(e - (52:ℤ)) := by
  have hb : 1 < (2:ℕ) := by norm_num
  have h1' : ((2:ℕ):ℚ)^e ≤ q := by exact_mod_cast h1
  have h2' : q < ((2:ℕ):ℚ)^(e+1) := by exact_mod_cast h2
  have hlog : Int.log 2 q = e := by
    have hle : e ≤ Int.log 2 q := (Int.zpow_le_iff_le_log hb hq).mp h1'
    have hlt : Int.log 2 q < e + 1 := (Int.lt_zpow_iff_log_lt hb hq).mp h2'
    omega
  rw [roundDouble, if_neg hq.ne']
  simp only [if_neg (not_lt.mpr hq.le), abs_of_pos hq, hlog, hm, one_mul]

/-- `int(original_gas_price * (1 + gas_increase / 100))` (line 312): the gas
price for a resubmission, computed from the *original* price each time, under
CPython `float` semantics.  `gas_increase / 100` is true division producing
the nearest double; `1 + ...` is a float add rounding again; the int gas
price is converted to the nearest double and the product rounds once more;
`int()` then truncates toward zero. -/
def rbfBumpedGas (pct : ℚ) (original : ℤ) : ℤ :=
  pyInt (roundDouble (roundDouble (original : ℚ) * roundDouble (1 + roundDouble (pct / 100))))

lemma roundDouble_15_100 : roundDouble ((15:ℚ)/100) = 5404319552844595/36028797018963968 := by
  have h := roundDouble_eq (15/100) (by norm_num) (-3) (by norm_num) (by norm_num)
    5404319552844595 (roundNearestEven_eq_floor _ _ (by norm_num) (by norm_num))
  rw [h]
  norm_num

lemma roundDouble_one_plus : roundDouble (1 + (5404319552844595:ℚ)/36028797018963968) =
    5179139571476070/4503599627370496 := by
  have h := roundDouble_eq (1 + (5404319552844595:ℚ)/36028797018963968) (by norm_num) 0
    (by norm_num) (by norm_num)
    5179139571476070 (roundNearestEven_eq_floor _ _ (by norm_num) (by norm_num))
  rw [h]
  norm_num

lemma roundDouble_100 : roundDouble ((100:ℚ)) = 100 := by
  have h := roundDouble_eq 100 (by norm_num) 6 (by norm_num) (by norm_num)
    7036874417766400 (roundNearestEven_eq_floor _ _ (by norm_num) (by norm_num))
  rw [h]
  norm_num

lemma roundDouble_product : roundDouble ((100:ℚ) * (5179139571476070/4503599627370496)) =
    8092405580431359/70368744177664 := by
  have h := roundDouble_eq ((100:ℚ) * (5179139571476070/4503599627370496)) (by norm_num) 6
    (by norm_num) (by norm_num)
    8092405580431359 (roundNearestEven_eq_floor _ _ (by norm_num) (by norm_num))
  rw [h]
  norm_num

/-- At `G = 100` the code's bumped gas price is 114, not `⌊100 · 1.15⌋ = 115`:
the double nearest `1 + 15/100` is `5179139571476070/2^52`, strictly below
`23/20`, and `100 *` it rounds to `8092405580431359/2^46 ≈ 114.99999999999999`,
which `int()` truncates to 114. -/
lemma rbfBumpedGas_15_100 : rbfBumpedGas 15 100 = 114 := by
  rw [rbfBumpedGas, show (((100:ℤ)):ℚ) = (100:ℚ) by norm_num, roundDouble_15_100,
    roundDouble_one_plus, roundDouble_100, roundDouble_product]
  rw [pyInt, if_neg (by norm_num)]
  rw [Int.floor_eq_iff]
  constructor <;> norm_num

/-- The `while attempts < max_attempts` loop of
`ATOMMEVProtection._submit_with_rbf` (atom-mev-protection.py lines 281-323).
One iteration signs and sends the transaction at its current gas price
(recorded in the returned submission list), waits for confirmation via
`_wait_for_tx_with_rbf` — which only polls and never resubmits — and on no
receipt increments `attempts` and, if still under the cap, bumps the gas
price and loops; with a receipt it returns it, and past the cap it returns
`None`.  `confirm k` abstracts whether the `k`-th submission obtains a
receipt; a send exception lands in the same no-receipt path.  `fuel` is the
structural bound `max_rbf_attempts - attempts` maintained by the wrapper
below, so the `fuel = 0` row is never reached while `attempts <
max_rbf_attempts`. -/
def rbfLoop (cfg : RbfConfig) (original : ℤ) (confirm : Nat → Bool) :
    Nat → Nat → ℤ → List ℤ → List ℤ × Option Nat
  | 0, _, _, subs => (subs, none)
  | fuel + 1, attempts, txGas, subs =>
    if attempts < cfg.max_rbf_attempts then
      let subs' := subs ++ [txGas]
      if confirm attempts then (subs', some attempts)
      else if attempts + 1 < cfg.max_rbf_attempts then
        rbfLoop cfg original confirm fuel (attempts + 1)
          (rbfBumpedGas cfg.rbf_gas_increase_percent original) subs'
      else (subs', none)
    else (subs, none)

/-- `ATOMMEVProtection._submit_with_rbf` for one logical transaction: returns
the list of gas prices actually submitted and the index of the confirmed
submission (`none` models the `return None` give-up). -/
def submit_with_rbf (cfg : RbfConfig) (original : ℤ) (confirm : Nat → Bool) :
    List ℤ × Option Nat :=
  rbfLoop cfg original confirm cfg.max_rbf_attempts 0 original []

lemma rbfLoop_length (cfg : RbfConfig) (original : ℤ) (confirm : Nat → Bool) :
    ∀ fuel attempts txGas subs,
      ((rbfLoop cfg original confirm fuel attempts txGas subs).1).length ≤
        subs.length + (cfg.max_rbf_attempts - attempts) := by
  intro fuel
  induction fuel with
  | zero => intro attempts txGas subs; simp [rbfLoop]
  | succ n ih =>
    intro attempts txGas subs
    rw [rbfLoop]
    split
    · rename_i hlt
      split
      · simp
        omega
      · split
        · rename_i hlt2
          refine le_trans (ih (attempts + 1) _ (subs ++ [txGas])) ?_
          simp
          omega
        · simp
          omega
    · simp

/-- C8 amended: the RBF loop never submits more than `max_rbf_attempts` times
for one logical transaction; with the defaults (3 attempts, 15%) and no
confirmation, exactly three submissions happen — the first at the initial gas
price `G` and each resubmission at `int(G * (1 + 15/100))` computed in
binary64 float arithmetic from the original price (approximately 15% more,
but possibly one unit below `⌊G·1.15⌋`, since the double nearest `1.15` is
strictly below `23/20`; see the counterexample) — after which the function
gives up and returns `None`, never making a fourth attempt. -/
theorem submit_with_rbf_bounded (cfg : RbfConfig) (G : ℤ) (confirm : Nat → Bool) :
    ((submit_with_rbf cfg G confirm).1).length ≤ cfg.max_rbf_attempts ∧
    ((∀ k, confirm k = false) →
      (submit_with_rbf ⟨3, 15⟩ G confirm).1 =
        [G, rbfBumpedGas 15 G, rbfBumpedGas 15 G] ∧
      (submit_with_rbf ⟨3, 15⟩ G confirm).2 = none) := by
  constructor
  · have h := rbfLoop_length cfg G confirm cfg.max_rbf_attempts 0 G []
    simpa [submit_with_rbf] using h
  · intro h
    constructor <;> simp [submit_with_rbf, rbfLoop, h]

/-- Witness for C8's amended theorem at `G = 100` and a never-confirming
chain: submissions are `[100, 114, 114]` and the result is `None`. -/
theorem submit_with_rbf_bounded_witness :
    ((submit_with_rbf ⟨3, 15⟩ 100 (fun _ => false)).1).length ≤ 3 ∧
    (submit_with_rbf ⟨3, 15⟩ 100 (fun _ => false)).1 = [100, 114, 114] ∧
    (submit_with_rbf ⟨3, 15⟩ 100 (fun _ => false)).2 = none := by
  have h := submit_with_rbf_bounded ⟨3, 15⟩ 100 (fun _ => false)
  have h2 := h.2 (fun _ => rfl)
  exact ⟨h.1, by rw [h2.1, rbfBumpedGas_15_100], h2.2⟩

/-- Counterexample to C8's gas clause: with initial gas price `G = 100` and no
confirmation within the check interval, the program's second submission
carries `int(100 * (1 + 15/100))` computed in binary64 floats, which is 114 —
not the claimed `G * 1.15 = 115`.  (`15/100` and `1 + 0.15` round to a double
strictly below `23/20`, and `100 *` it lands just under 115, which `int()`
truncates.) -/
theorem submit_with_rbf_gas_counterexample :
    (submit_with_rbf ⟨3, 15⟩ 100 (fun _ => false)).1 = [100, 114, 114] ∧
    (100:ℚ) * (1 + 15/100) = 115 ∧ (114:ℤ) ≠ 115 := by
  refine ⟨?_, by norm_num, by norm_num⟩
  simp [submit_with_rbf, rbfLoop, rbfBumpedGas_15_100]

/-! ## The DEX monitor price cache (`dex_monitor.py`) -/

/-- `PriceData` dataclass (dex_monitor.py lines 18-25). -/
structure PriceData where
  token_pair : String
  dex : String
  price : ℚ
  liquidity : ℚ
  timestamp : ℚ
  block_number : ℤ
deriving Repr, DecidableEq

/-- An inner `self.price_cache[dex]` dict: token pair ↦ `PriceData`. -/
abbrev InnerCache := List (String × PriceData)

/-- CPython dict assignment on an arbitrary association list (same semantics
as `dictInsert`, for the monitor's dictionaries). -/
def assocSet {κ ν : Type} [DecidableEq κ] (k : κ) (v : ν) :
    List (κ × ν) → List (κ × ν)
  | [] => [(k, v)]
  | (a, w) :: t => if a = k then (k, v) :: t else (a, w) :: assocSet k v t

/-- The `DEXMonitor` state relevant to the price cache.  Python inner dicts
are heap objects shared by reference: `heap` maps object addresses to inner
dicts, `price_cache` maps a dex name to the *address* of its inner dict, and
`nextAddr` is the allocation counter; `last_update` is the bookkeeping dict
of `self.last_update`. -/
structure MonitorState where
  heap : List (Nat × InnerCache)
  nextAddr : Nat
  price_cache : List (String × Nat)
  last_update : List (String × ℚ)
deriving Repr, DecidableEq

/-- Dereference an inner-dict address. -/
def heapGet (heap : List (Nat × InnerCache)) (addr : Nat) : InnerCache :=
  (heap.lookup addr).getD []

/-- `DEXMonitor._update_price_cache` (dex_monitor.py lines 182-188), with
`time.time()` passed as `now`.  `if dex not in self.price_cache:
self.price_cache[dex] = {}` allocates a fresh inner dict object;
`self.price_cache[dex][pair] = price_data` then mutates the dex's inner dict
object in place. -/
def update_price_cache (now : ℚ) (dex pair : String) (pd : PriceData)
    (s : MonitorState) : MonitorState :=
  let s1 := if (s.price_cache.lookup dex).isSome then s
    else { s with heap := s.heap ++ [(s.nextAddr, [])],
                  price_cache := s.price_cache ++ [(dex, s.nextAddr)],
                  nextAddr := s.nextAddr + 1 }
  match s1.price_cache.lookup dex with
  | some addr =>
    { s1 with heap := assocSet addr (assocSet pair pd (heapGet s1.heap addr)) s1.heap,
              last_update := assocSet (dex ++ "_" ++ pair) now s1.last_update }
  | none => s1

/-- `DEXMonitor.get_latest_prices` (dex_monitor.py lines 190-192):
`return self.price_cache.copy()` — a SHALLOW copy: the outer mapping (dex →
inner-dict object) is copied, the inner dict objects are shared. -/
def get_latest_prices (s : MonitorState) : List (String × Nat) := s.price_cache

/-- What a snapshot holder observes when iterating a previously returned
snapshot under the store's current heap. -/
def snapshotView (heap : List (Nat × InnerCache)) (snap : List (String × Nat)) :
    List (String × InnerCache) :=
  snap.map fun da => (da.1, heapGet heap da.2)

/-- Well-formedness maintained by the monitor: every inner-dict address held
by `price_cache` was allocated before `nextAddr`. -/
def MonitorWf (s : MonitorState) : Prop := ∀ da ∈ s.price_cache, da.2 < s.nextAddr

lemma lookup_assocSet_self {κ ν : Type} [DecidableEq κ] [BEq κ] [LawfulBEq κ]
    (k : κ) (v : ν) (l : List (κ × ν)) : (assocSet k v l).lookup k = some v := by
  induction l with
  | nil => simp [assocSet, List.lookup]
  | cons aw t ih =>
    obtain ⟨a, w⟩ := aw
    rw [assocSet]
    split
    · simp [List.lookup]
    · rename_i ha
      rw [List.lookup]
      have : (k == a) = false := beq_eq_false_iff_ne.mpr (fun h => ha h.symm)
      rw [this]
      exact ih

lemma lookup_assocSet_ne {κ ν : Type} [DecidableEq κ] [BEq κ] [LawfulBEq κ]
    {k p : κ} (hne : k ≠ p) (v : ν) (l : List (κ × ν)) :
    (assocSet k v l).lookup p = l.lookup p := by
  have hbeq : (p == k) = false := beq_eq_false_iff_ne.mpr (Ne.symm hne)
  induction l with
  | nil => simp [assocSet, List.lookup, hbeq]
  | cons aw t ih =>
    obtain ⟨a, w⟩ := aw
    rw [assocSet]
    split
    · rename_i ha
      subst ha
      simp [List.lookup, hbeq]
    · cases hpa : p == a
      · simp [List.lookup, hpa, ih]
      · simp [List.lookup, hpa]

lemma lookup_append_sentinel {ν : Type} {a k : Nat} (hne : a ≠ k) (v : ν)
    (l : List (Nat × ν)) : (l ++ [(k, v)]).lookup a = l.lookup a := by
  induction l with
  | nil => simp [List.lookup, beq_eq_false_iff_ne.mpr hne]
  | cons bw t ih =>
    obtain ⟨b, w⟩ := bw
    rw [List.cons_append, List.lookup, List.lookup]
    cases hab : a == b
    · simpa [hab] using ih
    · simp [hab]

lemma mem_keys_of_lookup_generic {κ ν : Type} [BEq κ] [LawfulBEq κ] {p : κ} {v : ν}
    {l : List (κ × ν)} (h : l.lookup p = some v) : p ∈ l.map Prod.fst := by
  induction l with
  | nil => simp [List.lookup] at h
  | cons aw t ih =>
    obtain ⟨a, w⟩ := aw
    rw [List.map_cons]
    rw [List.lookup] at h
    cases hpa : p == a
    · rw [hpa] at h
      exact List.mem_cons_of_mem _ (ih h)
    · have hpaeq : p = a := eq_of_beq hpa
      rw [hpaeq]
      exact List.mem_cons_self _ _

lemma lookup_append_right {ν : Type} {a : String} {l1 : List (String × ν)}
    (h : a ∉ l1.map Prod.fst) (l2 : List (String × ν)) :
    (l1 ++ l2).lookup a = l2.lookup a := by
  induction l1 with
  | nil => simp
  | cons bw t ih =>
    obtain ⟨b, w⟩ := bw
    rw [List.map_cons] at h
    rw [List.cons_append, List.lookup]
    have hab : (a == b) = false :=
      beq_eq_false_iff_ne.mpr (fun heq => h (heq ▸ List.mem_cons_self _ _))
    rw [hab]
    exact ih (fun hmem => h (List.mem_cons_of_mem _ hmem))

/-- C9 amended: `get_latest_prices` returns a *shallow* copy of the price
cache.  Under the allocation invariant, an update for a dex name absent from
the snapshot leaves everything visible through the snapshot unchanged (the
outer mapping is copied, and the fresh inner dict lives at a new address);
but an update for a dex present in the cache mutates that dex's shared inner
dict object in place, so the new entry is visible through every previously
returned snapshot holding that object's address. -/
theorem get_latest_prices_shallow_copy (s : MonitorState) (hwf : MonitorWf s)
    (now : ℚ) (dex pair : String) (pd : PriceData) :
    (dex ∉ s.price_cache.map Prod.fst →
      snapshotView (update_price_cache now dex pair pd s).heap (get_latest_prices s) =
        snapshotView s.heap (get_latest_prices s)) ∧
    (∀ addr, s.price_cache.lookup dex = some addr →
      ((update_price_cache now dex pair pd s).heap).lookup addr =
        some (assocSet pair pd (heapGet s.heap addr))) := by
  constructor
  · intro hout
    have hnone : s.price_cache.lookup dex = none := by
      cases hlk : s.price_cache.lookup dex with
      | none => rfl
      | some a =>
        exact absurd (mem_keys_of_lookup_generic hlk) hout
    rw [update_price_cache]
    simp only [hnone, Option.isSome_none, Bool.false_eq_true, if_false]
    have hfresh : ((s.price_cache ++ [(dex, s.nextAddr)]).lookup dex) = some s.nextAddr := by
      rw [lookup_append_right hout]
      simp [List.lookup]
    simp only [hfresh]
    rw [snapshotView, snapshotView]
    apply List.map_congr_left
    intro da hda
    have hlt : da.2 < s.nextAddr := hwf da hda
    have hne : da.2 ≠ s.nextAddr := Nat.ne_of_lt hlt
    rw [heapGet, heapGet, lookup_assocSet_ne (Ne.symm hne), lookup_append_sentinel hne]
    rfl
  · intro addr hlk
    rw [update_price_cache]
    simp only [hlk, Option.isSome_some, if_true]
    rw [lookup_assocSet_self]

/-- First feed datum for the `uni` / `WETH/USDC` pool. -/
def pd0 : PriceData := ⟨"WETH/USDC", "uni", 100, 5000, 1, 1⟩

/-- A later feed datum for the same pool (new price and block). -/
def pd1 : PriceData := ⟨"WETH/USDC", "uni", 200, 5000, 2, 2⟩

/-- The empty monitor state (`self.price_cache = {}`). -/
def mon0 : MonitorState := ⟨[], 0, [], []⟩

/-- The monitor after ingesting `pd0`. -/
def mon1 : MonitorState := update_price_cache 1 "uni" "WETH/USDC" pd0 mon0

lemma mon1_eval : mon1 =
    ⟨[(0, [("WETH/USDC", pd0)])], 1, [("uni", 0)], [("uni_WETH/USDC", 1)]⟩ := by
  simp [mon1, mon0, update_price_cache, assocSet, heapGet, List.lookup]

lemma monitorWf_mon1 : MonitorWf mon1 := by
  rw [MonitorWf, mon1_eval]
  intro da hda
  simp at hda
  simp [hda]

lemma viewBefore_eval : snapshotView mon1.heap (get_latest_prices mon1) =
    [("uni", [("WETH/USDC", pd0)])] := by
  rw [mon1_eval]
  simp [snapshotView, get_latest_prices, heapGet, List.lookup]

lemma viewAfter_eval :
    snapshotView (update_price_cache 2 "uni" "WETH/USDC" pd1 mon1).heap
      (get_latest_prices mon1) = [("uni", [("WETH/USDC", pd1)])] := by
  rw [mon1_eval]
  simp [snapshotView, get_latest_prices, update_price_cache, assocSet, heapGet,
    List.lookup]

/-- Counterexample to C9: the mapping returned by `get_latest_prices` is only
a shallow copy.  After the snapshot of `mon1` is taken, a single
`_update_price_cache` call for the already-present dex `uni` changes the data
observed through that very snapshot: iterating it now yields `pd1` where the
snapshot-time state held `pd0`. -/
theorem get_latest_prices_snapshot_counterexample :
    snapshotView (update_price_cache 2 "uni" "WETH/USDC" pd1 mon1).heap
        (get_latest_prices mon1) ≠
      snapshotView mon1.heap (get_latest_prices mon1) := by
  rw [viewAfter_eval, viewBefore_eval]
  simp [pd0, pd1]

/-- Witness for the amended C9: on `mon1`, an update for the absent dex
`sushi` leaves the snapshot view unchanged, while an update for the present
dex `uni` overwrites `uni`'s shared inner dict object in place. -/
theorem get_latest_prices_shallow_copy_witness :
    (snapshotView (update_price_cache 2 "sushi" "A/B" pd1 mon1).heap
        (get_latest_prices mon1) = snapshotView mon1.heap (get_latest_prices mon1)) ∧
    ((update_price_cache 2 "uni" "WETH/USDC" pd1 mon1).heap.lookup 0 =
      some (assocSet "WETH/USDC" pd1 (heapGet mon1.heap 0))) :=
  ⟨(get_latest_prices_shallow_copy mon1 monitorWf_mon1 2 "sushi" "A/B" pd1).1
      (by rw [mon1_eval]; simp),
   (get_latest_prices_shallow_copy mon1 monitorWf_mon1 2 "uni" "WETH/USDC" pd1).2 0
      (by rw [mon1_eval]; simp [List.lookup])⟩
